import Mathlib

/-!
Verification of the job pipeline of yt_downloader.py.

The development shallowly embeds the program logic of the downloader:
string helpers (strip, numeric parsing, path splitting), the trim-mark
normalizer, the yt-dlp format selection, the per-job pipeline executed by
DownloadWorker.process_task (with the external fetcher, ffmpeg invocations
and the file system modelled as explicit oracles and state), the queue
clearing operation of the App, and the size and time estimator.

External effects are modelled as oracle inputs (an Env record): the fetch
either yields a produced file path or an error message, each ffmpeg
invocation either succeeds (writing its output file) or exits non-zero
(possibly leaving a partially written output file behind), and the
subtitle download either succeeds or fails with a message.  UI callbacks
are recorded as an event trace; each event notes whether the call was
marshalled onto the Tk event loop through App.schedule (root.after) or
invoked directly on the worker thread.
-/

namespace YTD

/-- Characters stripped by the Python str.strip default (the ASCII part of
the Python whitespace set; exotic unicode whitespace is not modelled). -/
def pySpace (c : Char) : Bool :=
  c = ' ' || c = '\t' || c = '\n' || c = '\r' || c = '\x0b' || c = '\x0c'

/-- Python s.strip(): remove leading and trailing whitespace. -/
def pyStrip (s : String) : String :=
  String.mk (((s.data.dropWhile pySpace).reverse.dropWhile pySpace).reverse)

/-- Value of a list of decimal digit characters. -/
def digitsToNat (l : List Char) : Nat :=
  l.foldl (fun a c => a * 10 + (c.toNat - 48)) 0

/-- Strip one optional leading sign, returning whether it was a minus. -/
def stripSign : List Char → Bool × List Char
  | '-' :: r => (true, r)
  | '+' :: r => (false, r)
  | l => (false, l)

/-- Split a character list at the first occurrence of c, none if absent. -/
def splitAtFirst (c : Char) : List Char → Option (List Char × List Char)
  | [] => none
  | x :: xs =>
    if x = c then some ([], xs)
    else (splitAtFirst c xs).map (fun p => (x :: p.1, p.2))

/-- Combine mantissa digits, fractional length and exponent into the
truncated-toward-zero integer value of the decimal literal. -/
def decValue (neg : Bool) (ip fp : List Char) (eneg : Bool) (e : Nat) : Int :=
  let n : Nat := digitsToNat (ip ++ fp)
  let shift : Int := (if eneg then -(e : Int) else (e : Int)) - (fp.length : Int)
  let mag : Nat := if 0 ≤ shift then n * 10 ^ shift.toNat else n / 10 ^ (-shift).toNat
  if neg then -(mag : Int) else (mag : Int)

/-- Python int(float(s)) on an already stripped string: parse a decimal
float literal (optional sign, digits with optional fraction, optional
exponent) and truncate toward zero; none when parsing fails.  Strings such
as inf or nan map to none, matching the program, where the enclosing
int() call raises and the surrounding handler returns None.  Digit-group
underscores and the binary rounding of huge literals are not modelled. -/
def pyIntFloat (s : String) : Option Int :=
  let (neg, l0) := stripSign s.data
  let parts : List Char × Option (List Char) :=
    match splitAtFirst 'e' l0 with
    | some (m, ex) => (m, some ex)
    | none =>
      match splitAtFirst 'E' l0 with
      | some (m, ex) => (m, some ex)
      | none => (l0, none)
  let (ip, fp) :=
    match splitAtFirst '.' parts.1 with
    | some (a, b) => (a, b)
    | none => (parts.1, [])
  if !(ip.all Char.isDigit) || !(fp.all Char.isDigit) || (ip.isEmpty && fp.isEmpty) then
    none
  else
    match parts.2 with
    | none => some (decValue neg ip fp false 0)
    | some ep =>
      let (eneg, ed) := stripSign ep
      if ed.isEmpty || !(ed.all Char.isDigit) then none
      else some (decValue neg ip fp eneg (digitsToNat ed))

/-- Python format spec 02d: decimal, zero padded to width two, with the
sign counted inside the width. -/
def fmt02 (n : Int) : String :=
  if 0 ≤ n then
    let s := toString n.toNat
    if s.length < 2 then "0" ++ s else s
  else
    "-" ++ toString (-n).toNat

/-- The normalize helper defined inside the trimming block of
DownloadWorker.process_task: strip the mark; empty marks give None; marks
containing a colon are returned as stripped; otherwise the mark is parsed
as a number of seconds and rendered as HH:MM:SS; unparseable marks give
None (the bare except). -/
def normalize (ts : String) : Option String :=
  let s := pyStrip ts
  if s.data = [] then none
  else if ':' ∈ s.data then some s
  else
    match pyIntFloat s with
    | none => none
    | some sec =>
      let h := Int.fdiv sec 3600
      let m := Int.fdiv (Int.fmod sec 3600) 60
      let s2 := Int.fmod sec 60
      some (fmt02 h ++ ":" ++ fmt02 m ++ ":" ++ fmt02 s2)

/-- Index of the last occurrence of a character in a list. -/
def lastIdx (c : Char) : List Char → Option Nat
  | [] => none
  | x :: xs =>
    match lastIdx c xs with
    | some i => some (i + 1)
    | none => if x = c then some 0 else none

/-- os.path.splitext for posix separators: split off the extension at the
last dot of the basename, treating leading dots of the basename as part of
the root (the CPython genericpath algorithm). -/
def splitext (p : String) : String × String :=
  let l := p.data
  match lastIdx '.' l with
  | none => (p, "")
  | some d =>
    let fi : Nat :=
      match lastIdx '/' l with
      | none => 0
      | some sep => sep + 1
    if d < fi then (p, "")
    else if ((l.drop fi).take (d - fi)).all (fun c => c = '.') then (p, "")
    else (String.mk (l.take d), String.mk (l.drop d))

/-- Target path of the MP3 conversion: splitext(out_file)[0] + ".mp3". -/
def mp3Path (f : String) : String := (splitext f).1 ++ ".mp3"

/-- Target path of the trim stage:
splitext(out_file)[0] + "_trimmed" + splitext(out_file)[1]. -/
def trimmedPath (f : String) : String :=
  (splitext f).1 ++ "_trimmed" ++ (splitext f).2

/-- Python q.endswith("p"). -/
def pyEndsWithP (q : String) : Bool := q.data.getLast? = some 'p'

/-- Python q[:-1]. -/
def dropLastStr (q : String) : String := String.mk q.data.dropLast

/-- Python str.isdigit restricted to ASCII digits: nonempty and all
digits. -/
def pyIsdigit (s : String) : Bool := !s.data.isEmpty && s.data.all Char.isDigit

/-- The yt-dlp format string chosen by DownloadWorker.process_task from
the audio_only flag and the quality string. -/
def formatSelector (audio_only : Bool) (q : String) : String :=
  if audio_only then "bestaudio/best"
  else if q = "best" then "bestvideo+bestaudio/best"
  else if pyEndsWithP q && pyIsdigit (dropLastStr q) then
    "bestvideo[height<=" ++ dropLastStr q ++ "]+bestaudio/best"
  else "bestvideo+bestaudio/best"

/-- The ffmpeg executable name used by every media tool invocation. -/
def FFMPEG_CMD : String := "ffmpeg"

/-- Record a file as present on disk (ffmpeg -y overwrites, so adding an
already present path leaves the set unchanged). -/
def fsAdd (fs : List String) (p : String) : List String :=
  if p ∈ fs then fs else fs ++ [p]

/-- os.remove: the path is no longer present afterwards. -/
def fsDel (fs : List String) (p : String) : List String :=
  fs.filter (fun q => q ≠ p)

/-- Zero pad a digit string on the left to the given width. -/
def padZeros (n : Nat) (s : String) : String :=
  String.mk (List.replicate (n - s.length) '0') ++ s

/-- Fixed point rendering of a rational with the given number of decimal
places, rounding to nearest.  This models the Python format specs .1f and
.2f; the tie behaviour of binary floats is approximated by round half
up. -/
def fmtFixed (prec : Nat) (q : ℚ) : String :=
  let scaled : Int := ⌊q * (10 : ℚ) ^ prec + 1 / 2⌋
  let m := scaled.natAbs
  let ip := m / 10 ^ prec
  let fp := m % 10 ^ prec
  (if scaled < 0 then "-" else "") ++ toString ip ++
    (if prec = 0 then "" else "." ++ padZeros prec (toString fp))

/-- The human_size helper loop: repeatedly divide by 1024 through the
unit list. -/
def humanSizeVal : List String → ℚ → String
  | [], b => fmtFixed 2 b ++ " PB"
  | u :: us, b => if b < 1024 then fmtFixed 2 b ++ " " ++ u else humanSizeVal us (b / 1024)

/-- human_size: a missing or zero byte count (Python falsy) renders as
Unknown, otherwise the unit loop formats it. -/
def human_size (b : Option ℚ) : String :=
  match b with
  | none => "Unknown"
  | some v => if v = 0 then "Unknown" else humanSizeVal ["B", "KB", "MB", "GB", "TB"] v

/-- A UI callback observed by the App object. -/
inductive UICall where
  | updateProgress (pct : ℚ)
  | setStatus (text : String)
  | addHistory (url file : String)
  | showError (title msg : String)
  | log (msg : String)
deriving DecidableEq, Repr

/-- Whether a callback is a log-area append. -/
def UICall.isLog : UICall → Bool
  | .log _ => true
  | _ => false

/-- One observer callback together with the way it was delivered:
marshalled is true when the worker wrapped the call in ui.schedule
(root.after), false when the worker invoked the UI method directly. -/
structure Ev where
  marshalled : Bool
  call : UICall
deriving DecidableEq, Repr

/-- Pipeline stages that actually executed for a job. -/
inductive Stage where
  | fetching
  | converting
  | trimming
  | fetchingSubs
  | finalizing
deriving DecidableEq, Repr

/-- One callback of the yt-dlp progress hook, as delivered by the
fetcher: a downloading event carries downloaded and total byte counts
(total 0 when yt-dlp reported neither total_bytes nor an estimate). -/
inductive ProgEvt where
  | downloading (db tb : Nat)
  | finished
deriving DecidableEq, Repr

/-- Percentage computed by the progress hook: db / tb * 100, and 0 when
the total is unknown (falsy). -/
def pct (db tb : Nat) : ℚ :=
  if tb = 0 then 0 else (db : ℚ) / (tb : ℚ) * 100

/-- Status line of a downloading progress event. -/
def dlStatus (db tb : Nat) : String :=
  "Downloading... " ++ fmtFixed 1 (pct db tb) ++ "% " ++
    human_size (some (db : ℚ)) ++ " / " ++ human_size (some (tb : ℚ))

/-- Events scheduled by the progress hook, in delivery order.  Every call
goes through ui.schedule. -/
def progressEvents : List ProgEvt → List Ev
  | [] => []
  | .downloading db tb :: rest =>
    ⟨true, .updateProgress (pct db tb)⟩ :: ⟨true, .setStatus (dlStatus db tb)⟩ ::
      progressEvents rest
  | .finished :: rest =>
    ⟨true, .updateProgress 100⟩ :: ⟨true, .setStatus "Finalizing..."⟩ ::
      progressEvents rest

/-- Outcome of one ffmpeg invocation: success means the process exited
zero and its output file was written; failure means a non-zero exit (the
CalledProcessError path), with wroteOutput recording whether a partially
written output file was left on disk, and an error message. -/
inductive ToolOutcome where
  | success
  | failure (wroteOutput : Bool) (msg : String)
deriving DecidableEq, Repr

/-- The opts dictionary built by App.add_to_queue for one job. -/
structure Opts where
  quality : String
  save_folder : String
  start : String
  end_ : String
  audio_only : Bool
  convert_mp3 : Bool
  subs : Bool
  subs_lang : String
  noplaylist : Bool
deriving DecidableEq, Repr

/-- Oracle for the external effects of one job: the fetch result (error
message or produced file path), the progress events the fetcher emitted,
the outcomes of the conversion and of the two trim invocations, and the
subtitle download result. -/
structure Env where
  fetchResult : Except String String
  progress : List ProgEvt
  convertRun : ToolOutcome
  trimCopy : ToolOutcome
  trimRe : ToolOutcome
  subsResult : Except String Unit

/-- Result of one transform stage: emitted events, the files of the
fetch-convert-trim chain present on disk, and the current out_file. -/
structure StageOut where
  events : List Ev
  fs : List String
  outFile : String
deriving DecidableEq, Repr

/-- Result of the trim stage, additionally recording the ffmpeg command
lines that were invoked, in order. -/
structure TrimOut where
  calls : List (List String)
  events : List Ev
  fs : List String
  outFile : String
deriving DecidableEq, Repr

/-- The ffmpeg argument list shared by both trim invocations:
ffmpeg -y -i out_file, then -ss and -to only for marks that normalized to
a value. -/
def trimBase (f : String) (ss toM : Option String) : List String :=
  [FFMPEG_CMD, "-y", "-i", f] ++
    (match ss with | some v => ["-ss", v] | none => []) ++
    (match toM with | some v => ["-to", v] | none => [])

/-- The stream copy trim command (the fast path tried first). -/
def trimCmdCopy (f : String) (ss toM : Option String) : List String :=
  trimBase f ss toM ++ ["-c", "copy", trimmedPath f]

/-- The re-encoding trim command (the fallback on non-zero exit). -/
def trimCmdRe (f : String) (ss toM : Option String) : List String :=
  trimBase f ss toM ++ ["-c:v", "libx264", "-c:a", "aac", trimmedPath f]

/-- The MP3 conversion block: run ffmpeg with check=True; on success
remove the input and switch out_file to the mp3; on failure log and keep
the previous file (a partially written mp3 may remain on disk). -/
def convertStage (f : String) (r : ToolOutcome) (fs : List String) : StageOut :=
  let mp3 := mp3Path f
  match r with
  | .success => { events := [], fs := fsDel (fsAdd fs mp3) f, outFile := mp3 }
  | .failure wrote m =>
    { events := [⟨false, .log ("MP3 conversion failed: " ++ m)⟩]
      fs := if wrote then fsAdd fs mp3 else fs
      outFile := f }

/-- The trimming block: run the stream copy command; only when it exits
non-zero, run the re-encoding command with check=True; after either
successful attempt remove the input and switch out_file to the trimmed
file; when both attempts fail, log and keep the previous file
(partially written trimmed files may remain on disk). -/
def trimStage (f : String) (ss toM : Option String) (c r : ToolOutcome)
    (fs : List String) : TrimOut :=
  let tr := trimmedPath f
  match c with
  | .success =>
    { calls := [trimCmdCopy f ss toM], events := []
      fs := fsDel (fsAdd fs tr) f, outFile := tr }
  | .failure wrote _ =>
    let fs1 := if wrote then fsAdd fs tr else fs
    match r with
    | .success =>
      { calls := [trimCmdCopy f ss toM, trimCmdRe f ss toM], events := []
        fs := fsDel (fsAdd fs1 tr) f, outFile := tr }
    | .failure wrote2 m2 =>
      { calls := [trimCmdCopy f ss toM, trimCmdRe f ss toM]
        events := [⟨false, .log ("Trim failed: " ++ m2)⟩]
        fs := if wrote2 then fsAdd fs1 tr else fs1
        outFile := f }

/-- Full result of DownloadWorker.process_task for one job. -/
structure RunResult where
  formatUsed : String
  events : List Ev
  stages : List Stage
  outFile : Option String
  fs : List String
  trimInput : Option String
  trimCalls : List (List String)

/-- DownloadWorker.process_task: fetch, then the optional conversion,
trimming and subtitle stages, then the finalizing callbacks.  A fetch
failure logs, schedules an error dialog and returns at once; transform
and subtitle failures only log.  ui.log calls are direct (marshalled
false); everything else goes through ui.schedule. -/
def process_task (url : String) (opts : Opts) (env : Env) : RunResult :=
  let fmt := formatSelector opts.audio_only opts.quality
  let startEvs : List Ev :=
    [⟨false, .log ("Start: " ++ url)⟩, ⟨true, .setStatus "Downloading..."⟩]
  let pEvs := progressEvents env.progress
  match env.fetchResult with
  | .error e =>
    { formatUsed := fmt
      events := startEvs ++ pEvs ++
        [⟨false, .log ("Download failed: " ++ e)⟩, ⟨true, .showError "Download failed" e⟩]
      stages := [.fetching], outFile := none, fs := [], trimInput := none, trimCalls := [] }
  | .ok f0 =>
    let conv : StageOut :=
      if opts.audio_only && opts.convert_mp3 then convertStage f0 env.convertRun [f0]
      else { events := [], fs := [f0], outFile := f0 }
    let convStages : List Stage :=
      if opts.audio_only && opts.convert_mp3 then [.converting] else []
    let trim : TrimOut :=
      if opts.start ≠ "" ∨ opts.end_ ≠ "" then
        trimStage conv.outFile (normalize opts.start) (normalize opts.end_)
          env.trimCopy env.trimRe conv.fs
      else { calls := [], events := [], fs := conv.fs, outFile := conv.outFile }
    let trimStages : List Stage :=
      if opts.start ≠ "" ∨ opts.end_ ≠ "" then [.trimming] else []
    let subsEvs : List Ev :=
      if opts.subs then
        match env.subsResult with
        | .ok _ => []
        | .error m => [⟨false, .log ("Sub download failed: " ++ m)⟩]
      else []
    let subsStages : List Stage := if opts.subs then [.fetchingSubs] else []
    let finEvs : List Ev :=
      [⟨true, .addHistory url trim.outFile⟩, ⟨true, .updateProgress 0⟩,
       ⟨true, .setStatus "Ready"⟩, ⟨false, .log ("Completed: " ++ trim.outFile)⟩]
    { formatUsed := fmt
      events := startEvs ++ pEvs ++ conv.events ++ trim.events ++ subsEvs ++ finEvs
      stages := [.fetching] ++ convStages ++ trimStages ++ subsStages ++ [.finalizing]
      outFile := some trim.outFile
      fs := trim.fs
      trimInput := if opts.start ≠ "" ∨ opts.end_ ≠ "" then some conv.outFile else none
      trimCalls := trim.calls }

/-- The DownloadWorker.run loop over the tasks a worker dequeues, as the
concatenation of the per-task event traces.  process_task is total in
this model, so the task-error catch of the loop is never taken and every
queued task gets processed. -/
def workerRun : List (String × Opts × Env) → List Ev
  | [] => []
  | (u, o, e) :: rest => (process_task u o e).events ++ workerRun rest

/-- Queue related state of the App: the pending entries of tasks_q, the
tasks already dequeued by workers (owned by those workers, no longer in
the queue), and the queue listbox lines. -/
structure AppQState where
  pending : List (String × Opts)
  running : List (String × Opts)
  listbox : List String
deriving DecidableEq, Repr

/-- App.clear_queue: under the queue mutex, drop every pending entry and
clear the listbox; the method body has no return statement, so the call
evaluates to None, modelled as the second component none. -/
def clear_queue (s : AppQState) : AppQState × Option Nat :=
  ({ pending := [], running := s.running, listbox := [] }, none)

/-- Modelled from the spec: clear() atomically empties pending
(not-yet-dequeued) jobs and returns the count removed.  This is the
specification-side operation used to compare against clear_queue. -/
def clearSpecModel (s : AppQState) : AppQState × Nat :=
  ({ pending := [], running := s.running, listbox := s.listbox }, s.pending.length)

/-- One entry of the formats list of the yt-dlp metadata for a video. -/
structure Fmt where
  height : Option ℚ
  filesize : Option ℚ
deriving DecidableEq, Repr

/-- The yt-dlp metadata fields read by App.estimate. -/
structure Info where
  abr : Option ℚ
  duration : Option ℚ
  filesize : Option ℚ
  formats : List Fmt
deriving DecidableEq, Repr

/-- Python x or d for an optional number: falsy (missing or zero) falls
through to the default. -/
def pyOrQ (o : Option ℚ) (d : ℚ) : ℚ :=
  match o with
  | some v => if v = 0 then d else v
  | none => d

/-- Python a or b for optional numbers: keep a when truthy, else b. -/
def pyOrOptQ (a b : Option ℚ) : Option ℚ :=
  match a with
  | some v => if v = 0 then b else some v
  | none => b

/-- Python max(l, key=k): the first element with maximal key (later
elements replace the current best only on a strictly greater key). -/
def pyMaxBy (k : Fmt → ℚ) : List Fmt → Option Fmt
  | [] => none
  | x :: xs => some (xs.foldl (fun best y => if k best < k y then y else best) x)

/-- The candidate filter of the capped-height branch of App.estimate:
formats with a truthy height at most h and a truthy filesize. -/
def candCapped (h : ℚ) (formats : List Fmt) : List Fmt :=
  formats.filter (fun f =>
    match f.height, f.filesize with
    | some hv, some fsz => decide (hv ≠ 0) && decide (hv ≤ h) && decide (fsz ≠ 0)
    | _, _ => false)

/-- The format entry App.estimate selects on the video path: the last
formats entry for quality best, the highest candidate under the cap for a
quality like 720p, and otherwise the candidate with the largest filesize;
none when the relevant candidate list is empty. -/
def selFormat (q : String) (info : Info) : Option Fmt :=
  if q = "best" then info.formats.getLast?
  else if pyEndsWithP q && pyIsdigit (dropLastStr q) then
    pyMaxBy (fun f => pyOrQ f.height 0)
      (candCapped (digitsToNat (dropLastStr q).data : ℚ) info.formats)
  else
    pyMaxBy (fun f => pyOrQ f.filesize 0)
      (info.formats.filter (fun f => match f.filesize with
        | some fsz => decide (fsz ≠ 0)
        | none => false))

/-- quick_speed_test: each probe either raised (none, loop continues) or
measured (bytes, elapsed); the first probe with positive elapsed time
yields bytes per second; otherwise None.  The byte accumulation loop of
the probe body is summarized by the oracle pair. -/
def quick_speed_test : List (Option (ℚ × ℚ)) → Option ℚ
  | [] => none
  | none :: rest => quick_speed_test rest
  | some (total, dt) :: rest =>
    if 0 < dt then some (total / dt) else quick_speed_test rest

/-- ETA rendering of App.estimate: f-string mins m secs s with
mins = int(eta // 60) and secs = int(eta % 60). -/
def fmtMinSec (eta : ℚ) : String :=
  let mins := ⌊eta / 60⌋
  let secs := ⌊eta - 60 * (mins : ℚ)⌋
  toString mins ++ "m" ++ toString secs ++ "s"

/-- Observable outcome of one App.estimate call. -/
inductive EstOutcome where
  | warning (msg : String)
  | label (text : String)
  | errorDialog
deriving DecidableEq, Repr

/-- The ETA string of App.estimate, through the Python truthiness chain:
a falsy speed (probe failure or zero) gives Unknown without forming the
quotient, a falsy size gives Unknown, a falsy eta gives Unknown, and only
otherwise is eta = est_bytes / spd rendered. -/
def etaString (est spd : Option ℚ) : String :=
  match spd with
  | none => "Unknown"
  | some sv =>
    if sv = 0 then "Unknown"
    else
      match est with
      | none => "Unknown"
      | some ev =>
        if ev = 0 then "Unknown"
        else if ev / sv = 0 then "Unknown" else fmtMinSec (ev / sv)

/-- Tail of App.estimate after est_bytes is known: run the speed test,
derive the ETA string, and set the estimate label. -/
def finishEstimate (est : Option ℚ) (probes : List (Option (ℚ × ℚ))) : EstOutcome :=
  .label ("Size: " ++ human_size est ++ "   ETA: " ++ etaString est (quick_speed_test probes))

/-- App.estimate: warn on an empty URL; otherwise fetch metadata (probe
oracle; a fetch error reaches the outer handler and shows the Estimate
failed dialog).  On the audio path the size is abr * 1000 / 8 * duration
with Python or defaults; on the video path the selected format entry is
read, and when no entry was selected the attribute access on None raises,
again reaching the outer handler and showing the dialog. -/
def estimate (url : String) (audio_only : Bool) (quality : String)
    (probe : Except String Info) (probes : List (Option (ℚ × ℚ))) : EstOutcome :=
  if pyStrip url = "" then .warning "Paste a YouTube URL first."
  else
    match probe with
    | .error _ => .errorDialog
    | .ok info =>
      if audio_only then
        finishEstimate (some (pyOrQ info.abr 128 * 1000 / 8 * pyOrQ info.duration 0)) probes
      else
        match selFormat quality info with
        | none => .errorDialog
        | some sel => finishEstimate (pyOrOptQ sel.filesize (pyOrOptQ info.filesize none)) probes

/-- The est_bytes expression of App.estimate, as a function of the inputs
(none both for the missing-size chain and for the unreachable values of
the crashing branch). -/
def estBytes (audio_only : Bool) (q : String) (info : Info) : Option ℚ :=
  if audio_only then some (pyOrQ info.abr 128 * 1000 / 8 * pyOrQ info.duration 0)
  else
    match selFormat q info with
    | none => none
    | some sel => pyOrOptQ sel.filesize (pyOrOptQ info.filesize none)

/-! ## Helper lemmas -/

theorem strMk_append (a b : List Char) : String.mk a ++ String.mk b = String.mk (a ++ b) :=
  rfl

theorem str_append_empty (s : String) : s ++ "" = s := by
  obtain ⟨l⟩ := s
  rw [show ("" : String) = String.mk [] from rfl, strMk_append, List.append_nil]

theorem splitext_concat (p : String) : (splitext p).1 ++ (splitext p).2 = p := by
  obtain ⟨l⟩ := p
  cases hd : lastIdx '.' l with
  | none => simp [splitext, hd, str_append_empty]
  | some d =>
    simp only [splitext, hd]
    split
    · exact str_append_empty _
    · split
      · exact str_append_empty _
      · rw [strMk_append, List.take_append_drop]

theorem trimmedPath_ne (f : String) : trimmedPath f ≠ f := by
  intro h
  have hc := congrArg String.length (splitext_concat f)
  have h1 := congrArg String.length h
  rw [String.length_append] at hc
  rw [trimmedPath, String.length_append, String.length_append] at h1
  have h8 : ("_trimmed" : String).length = 8 := rfl
  omega

theorem mem_progressEvents (l : List ProgEvt) (e : Ev) (h : e ∈ progressEvents l) :
    e.marshalled = true ∧
      ((∃ p, e.call = .updateProgress p) ∨ (∃ t, e.call = .setStatus t)) := by
  induction l with
  | nil => simp [progressEvents] at h
  | cons x rest ih =>
    cases x with
    | downloading db tb =>
      simp only [progressEvents, List.mem_cons] at h
      rcases h with h | h | h
      · subst h; exact ⟨rfl, Or.inl ⟨_, rfl⟩⟩
      · subst h; exact ⟨rfl, Or.inr ⟨_, rfl⟩⟩
      · exact ih h
    | finished =>
      simp only [progressEvents, List.mem_cons] at h
      rcases h with h | h | h
      · subst h; exact ⟨rfl, Or.inl ⟨_, rfl⟩⟩
      · subst h; exact ⟨rfl, Or.inr ⟨_, rfl⟩⟩
      · exact ih h

theorem progressEvents_marshalled (l : List ProgEvt) (e : Ev) (h : e ∈ progressEvents l) :
    e.marshalled = !(e.call.isLog) := by
  obtain ⟨hm, hc⟩ := mem_progressEvents l e h
  rcases hc with ⟨p, hp⟩ | ⟨t, ht⟩
  · rw [hm, hp]; rfl
  · rw [hm, ht]; rfl

theorem convertStage_events (f : String) (r : ToolOutcome) (fs : List String) :
    ∀ e ∈ (convertStage f r fs).events,
      ∃ m, e = Ev.mk false (.log ("MP3 conversion failed: " ++ m)) := by
  cases r with
  | success => simp [convertStage]
  | failure w m =>
    intro e he
    simp [convertStage] at he
    exact ⟨m, he⟩

theorem trimStage_events (f : String) (ss toM : Option String) (c r : ToolOutcome)
    (fs : List String) :
    ∀ e ∈ (trimStage f ss toM c r fs).events,
      ∃ m, e = Ev.mk false (.log ("Trim failed: " ++ m)) := by
  cases c with
  | success => simp [trimStage]
  | failure w m =>
    cases r with
    | success => simp [trimStage]
    | failure w2 m2 =>
      intro e he
      simp [trimStage] at he
      exact ⟨m2, he⟩

/-! ## Claim theorems -/

/-- C1: when the fetch stage fails, process_task logs the error, schedules
the error dialog and returns at once: no convert, trim, subtitle or
finalize stage runs, no history entry is appended, and the worker loop
goes on to process the remaining queued tasks unchanged. -/
theorem c1_fetch_failure_stops_job (url msg : String) (opts : Opts) (env : Env)
    (h : env.fetchResult = .error msg) :
    (process_task url opts env).stages = [Stage.fetching] ∧
    Ev.mk false (.log ("Download failed: " ++ msg)) ∈ (process_task url opts env).events ∧
    Ev.mk true (.showError "Download failed" msg) ∈ (process_task url opts env).events ∧
    (∀ u f, Ev.mk true (.addHistory u f) ∉ (process_task url opts env).events) ∧
    (∀ rest, workerRun ((url, opts, env) :: rest) =
      (process_task url opts env).events ++ workerRun rest) := by
  refine ⟨by simp [process_task, h], ?_, ?_, ?_, fun rest => by simp [workerRun]⟩
  · simp [process_task, h, List.mem_append]
  · simp [process_task, h, List.mem_append]
  · intro u f hm
    simp [process_task, h, List.mem_append] at hm
    obtain ⟨_, hc⟩ := mem_progressEvents _ _ hm
    rcases hc with ⟨p, hp⟩ | ⟨t, ht⟩
    · simp at hp
    · simp at ht

theorem c1_fetch_failure_stops_job_witness :
    (process_task "u" ⟨"best", "/dl", "", "", false, false, false, "en", true⟩
        ⟨.error "boom", [], .success, .success, .success, .ok ()⟩).stages =
      [Stage.fetching] ∧
    Ev.mk false (.log ("Download failed: " ++ "boom")) ∈
      (process_task "u" ⟨"best", "/dl", "", "", false, false, false, "en", true⟩
        ⟨.error "boom", [], .success, .success, .success, .ok ()⟩).events :=
  ⟨(c1_fetch_failure_stops_job "u" "boom" _ _ rfl).1,
   (c1_fetch_failure_stops_job "u" "boom" _ _ rfl).2.1⟩

/-- C5 counterexample: clear_queue empties the pending queue but its body
has no return statement: the call returns None (modelled none), not the
count of removed jobs (here 1, as clearSpecModel computes). -/
theorem c5_clear_queue_cex :
    (clear_queue ⟨[("u", ⟨"best", "/dl", "", "", false, false, false, "en", true⟩)],
      [], ["u [best]"]⟩).2 = none ∧
    (clearSpecModel ⟨[("u", ⟨"best", "/dl", "", "", false, false, false, "en", true⟩)],
      [], ["u [best]"]⟩).2 = 1 :=
  ⟨rfl, rfl⟩

/-- C5 amended: clear_queue removes every pending (not yet dequeued) job,
leaving the pending queue empty, and leaves jobs already dequeued by
workers untouched; it returns no removal count (the Python method returns
None). -/
theorem c5_clear_queue_amended (s : AppQState) :
    (clear_queue s).1.pending = [] ∧ (clear_queue s).1.running = s.running ∧
    (clear_queue s).2 = none :=
  ⟨rfl, rfl, rfl⟩

/-- C7 counterexample: normalize returns the stripped mark, so a string
that contains a colon but carries surrounding whitespace is not returned
unchanged. -/
theorem c7_normalize_cex :
    normalize " 0:0 " ≠ some " 0:0 " ∧ normalize " 0:0 " = some "0:0" := by
  decide

/-- C7 amended: for every string whose stripped form contains a colon,
normalize returns the stripped string (hence any HH:MM:SS string without
surrounding whitespace is returned unchanged, and normalize is idempotent
on such marks), and normalize "90" = "00:01:30". -/
theorem c7_normalize_amended :
    (∀ s : String, ':' ∈ (pyStrip s).data → normalize s = some (pyStrip s)) ∧
    normalize "90" = some "00:01:30" := by
  constructor
  · intro s h
    have hne : (pyStrip s).data ≠ [] := List.ne_nil_of_mem h
    simp [normalize, hne, h]
  · decide

theorem c7_normalize_amended_witness : normalize "00:01:30" = some "00:01:30" := by
  rw [c7_normalize_amended.1 "00:01:30" (by decide)]
  decide

/-- C9: an empty, whitespace-only, or colon-free unparseable trim mark
makes normalize return none (no exception escapes: the model is total and
mirrors the bare except of the source), and the corresponding -ss or -to
flag is then absent from the ffmpeg trim command. -/
theorem c9_bad_marks_silently_dropped (ts f : String) (o : Option String)
    (h : (pyStrip ts).data = [] ∨
      (':' ∉ (pyStrip ts).data ∧ pyIntFloat (pyStrip ts) = none)) :
    normalize ts = none ∧
    trimBase f (normalize ts) o =
      [FFMPEG_CMD, "-y", "-i", f] ++ (match o with | some v => ["-to", v] | none => []) ∧
    trimBase f o (normalize ts) =
      [FFMPEG_CMD, "-y", "-i", f] ++ (match o with | some v => ["-ss", v] | none => []) := by
  have hn : normalize ts = none := by
    rcases h with h | ⟨hc, hp⟩
    · simp [normalize, h]
    · by_cases hd : (pyStrip ts).data = []
      · simp [normalize, hd]
      · simp [normalize, hd, hc, hp]
  refine ⟨hn, ?_, ?_⟩
  · rw [hn]; cases o <;> simp [trimBase]
  · rw [hn]; cases o <;> simp [trimBase]

theorem c9_bad_marks_silently_dropped_witness :
    normalize "abc" = none ∧
    trimBase "/dl/v.mp4" (normalize "abc") (some "00:00:05") =
      ["ffmpeg", "-y", "-i", "/dl/v.mp4", "-to", "00:00:05"] := by
  have h := c9_bad_marks_silently_dropped "abc" "/dl/v.mp4" (some "00:00:05")
    (Or.inr ⟨by decide, by decide⟩)
  exact ⟨h.1, by rw [h.2.1]; decide⟩

/-- C10: with audio_only false, every quality string other than best or
digits followed by p (in particular the selectable value audio) falls back
to the format selector bestvideo+bestaudio/best, a full quality video
download rather than an audio-only one. -/
theorem c10_quality_fallback (url : String) (opts : Opts) (env : Env)
    (ha : opts.audio_only = false) (hq : opts.quality ≠ "best")
    (hp : (pyEndsWithP opts.quality && pyIsdigit (dropLastStr opts.quality)) = false) :
    (process_task url opts env).formatUsed = "bestvideo+bestaudio/best" ∧
    (process_task url opts env).formatUsed ≠ "bestaudio/best" := by
  have hused : (process_task url opts env).formatUsed =
      formatSelector opts.audio_only opts.quality := by
    cases hfetch : env.fetchResult <;> simp [process_task, hfetch]
  have hfmt : formatSelector opts.audio_only opts.quality = "bestvideo+bestaudio/best" := by
    simp [formatSelector, ha, hq, hp]
  rw [hused, hfmt]
  exact ⟨rfl, by decide⟩

theorem convertStage_single (f : String) (r : ToolOutcome)
    (hr : ∀ m, r ≠ .failure true m) (hne : mp3Path f ≠ f) :
    (convertStage f r [f]).fs = [(convertStage f r [f]).outFile] := by
  cases r with
  | success => simp [convertStage, fsAdd, fsDel, hne]
  | failure w m =>
    cases w with
    | true => exact absurd rfl (hr m)
    | false => simp [convertStage]

theorem trimStage_single (f : String) (ss toM : Option String) (c r : ToolOutcome)
    (h1 : ∀ m, c ≠ .failure true m) (h2 : ∀ m, r ≠ .failure true m) :
    (trimStage f ss toM c r [f]).fs = [(trimStage f ss toM c r [f]).outFile] := by
  have hne := trimmedPath_ne f
  cases c with
  | success => simp [trimStage, fsAdd, fsDel, hne]
  | failure w m =>
    cases w with
    | true => exact absurd rfl (h1 m)
    | false =>
      cases r with
      | success => simp [trimStage, fsAdd, fsDel, hne]
      | failure w2 m2 =>
        cases w2 with
        | true => exact absurd rfl (h2 m2)
        | false => simp [trimStage]

/-- C3 counterexample: a conversion failure that leaves a partially
written mp3 behind (ffmpeg commonly leaves partial output on a failed
run) ends the job with the fetched file as outFile while two files of the
chain remain on disk: the code has no cleanup of partial successor files
on a failed transform. -/
theorem c3_single_file_cex :
    (process_task "u" ⟨"audio", "/dl", "", "", true, true, false, "en", true⟩
      ⟨.ok "/dl/v.m4a", [], .failure true "boom", .success, .success, .ok ()⟩).outFile =
      some "/dl/v.m4a" ∧
    (process_task "u" ⟨"audio", "/dl", "", "", true, true, false, "en", true⟩
      ⟨.ok "/dl/v.m4a", [], .failure true "boom", .success, .success, .ok ()⟩).fs =
      ["/dl/v.m4a", "/dl/v.mp3"] := by
  decide

/-- C3 amended: provided no transform invocation fails after writing a
partial output file, and the conversion target path differs from its
input, the job ends with exactly the final produced file on disk: each
transform stage deletes its predecessor only after the successor is
written, and no other chain file remains. -/
theorem c3_single_file_amended (url f g : String) (opts : Opts) (env : Env)
    (hf : env.fetchResult = .ok f)
    (hc : ∀ m, env.convertRun ≠ .failure true m)
    (hp1 : ∀ m, env.trimCopy ≠ .failure true m)
    (hp2 : ∀ m, env.trimRe ≠ .failure true m)
    (hmp3 : mp3Path f ≠ f)
    (hg : (process_task url opts env).outFile = some g) :
    (process_task url opts env).fs = [g] := by
  have hconv := convertStage_single f env.convertRun hc hmp3
  by_cases hcv : (opts.audio_only && opts.convert_mp3) = true
  · by_cases htr : opts.start ≠ "" ∨ opts.end_ ≠ ""
    · have htrim := trimStage_single (convertStage f env.convertRun [f]).outFile
        (normalize opts.start) (normalize opts.end_) env.trimCopy env.trimRe hp1 hp2
      simp [process_task, hf, hcv, htr] at hg ⊢
      rw [hconv] at hg ⊢
      rw [htrim, hg]
    · simp [process_task, hf, hcv, htr] at hg ⊢
      rw [hconv, hg]
  · by_cases htr : opts.start ≠ "" ∨ opts.end_ ≠ ""
    · have htrim := trimStage_single f
        (normalize opts.start) (normalize opts.end_) env.trimCopy env.trimRe hp1 hp2
      simp [process_task, hf, hcv, htr] at hg ⊢
      rw [htrim, hg]
    · simp [process_task, hf, hcv, htr] at hg ⊢
      rw [hg]

theorem c3_single_file_amended_witness :
    (process_task "u" ⟨"audio", "/dl", "5", "", true, true, false, "en", true⟩
      ⟨.ok "/dl/v.m4a", [], .success, .success, .success, .ok ()⟩).fs =
      ["/dl/v_trimmed.mp3"] :=
  c3_single_file_amended "u" "/dl/v.m4a" "/dl/v_trimmed.mp3"
    ⟨"audio", "/dl", "5", "", true, true, false, "en", true⟩
    ⟨.ok "/dl/v.m4a", [], .success, .success, .success, .ok ()⟩ rfl
    (fun _ h => ToolOutcome.noConfusion h) (fun _ h => ToolOutcome.noConfusion h)
    (fun _ h => ToolOutcome.noConfusion h) (by decide) (by decide)

/-- C6 counterexample: on the video path with a quality cap, a format
list whose entries carry no declared filesize yields no candidate, the
selected entry is None, and the attribute access raises: the outer
handler shows the Estimate failed dialog instead of reporting an explicit
unknown marker for the size. -/
theorem c6_estimate_cex :
    estimate "u" false "720p" (.ok ⟨none, none, none, [⟨some 720, none⟩]⟩) [] =
      .errorDialog := by
  decide

/-- C6 amended: whenever the estimator reaches a size expression (the
audio path, or a video path where some format entry is selected), the
call always produces the estimate label, whatever the speed probe
measured, with the size rendered by human_size and the ETA by the
truthiness chain etaString; a missing or zero size renders as Unknown; a
failed, timed-out or zero-speed probe, or a missing or zero size, gives
ETA Unknown; and whenever a non-Unknown ETA is reported, the measured
speed is non-zero (so the quotient est / spd never divides by zero), the
size is non-zero, and the rendered eta value is the non-zero quotient —
never a zero substituted in place of the unknown marker.  When no format
entry is selected, the call instead shows the Estimate failed dialog (see
the counterexample). -/
theorem c6_estimate_amended (url q : String) (audio_only : Bool) (info : Info)
    (probes : List (Option (ℚ × ℚ)))
    (hurl : pyStrip url ≠ "")
    (hsel : audio_only = true ∨ ∃ sel, selFormat q info = some sel) :
    estimate url audio_only q (.ok info) probes =
      .label ("Size: " ++ human_size (estBytes audio_only q info) ++ "   ETA: " ++
        etaString (estBytes audio_only q info) (quick_speed_test probes)) ∧
    (∀ est : Option ℚ, est = none ∨ est = some 0 → human_size est = "Unknown") ∧
    (∀ est spd : Option ℚ,
      spd = none ∨ spd = some 0 ∨ est = none ∨ est = some 0 →
      etaString est spd = "Unknown") ∧
    (∀ (est : Option ℚ) (sv : ℚ), etaString est (some sv) ≠ "Unknown" →
      sv ≠ 0 ∧ ∃ ev, est = some ev ∧ ev ≠ 0 ∧ ev / sv ≠ 0 ∧
        etaString est (some sv) = fmtMinSec (ev / sv)) := by
  refine ⟨?_, ?_, ?_, ?_⟩
  · cases audio_only with
    | true =>
      simp only [estimate, if_neg hurl, if_true]
      simp [finishEstimate, estBytes]
    | false =>
      rcases hsel with ha | ⟨sel, hsl⟩
      · exact absurd ha (by simp)
      · simp only [estimate, if_neg hurl, Bool.false_eq_true, if_false, hsl]
        simp [finishEstimate, estBytes, hsl]
  · rintro est (rfl | rfl) <;> simp [human_size]
  · rintro est spd (rfl | rfl | rfl | rfl)
    · rfl
    · simp [etaString]
    · cases spd with
      | none => rfl
      | some sv => by_cases hsv : sv = 0 <;> simp [etaString, hsv]
    · cases spd with
      | none => rfl
      | some sv => by_cases hsv : sv = 0 <;> simp [etaString, hsv]
  · intro est sv hne
    by_cases hsv : sv = 0
    · exact absurd (by simp [etaString, hsv]) hne
    · cases est with
      | none => exact absurd (by simp [etaString, hsv]) hne
      | some ev =>
        by_cases hev : ev = 0
        · exact absurd (by simp [etaString, hsv, hev]) hne
        · by_cases heq : ev / sv = 0
          · exact absurd (by simp [etaString, hsv, hev, heq]) hne
          · exact ⟨hsv, ev, rfl, hev, heq, by simp [etaString, hsv, hev, heq]⟩

theorem c6_estimate_amended_witness :
    estimate "u" true "best" (.ok ⟨none, none, none, []⟩) [some (200000, 2)] =
      .label ("Size: " ++ human_size (estBytes true "best" ⟨none, none, none, []⟩) ++
        "   ETA: " ++ etaString (estBytes true "best" ⟨none, none, none, []⟩)
          (quick_speed_test [some (200000, 2)])) :=
  (c6_estimate_amended "u" "best" true ⟨none, none, none, []⟩ [some (200000, 2)]
    (by decide) (Or.inl rfl)).1

/-- C8 counterexample: log callbacks are issued directly from the worker
thread (ui.log writes into the Tk text widget without going through
schedule), so not every observer callback of the pipeline is marshalled
onto the UI event loop. -/
theorem c8_marshalling_cex :
    Ev.mk false (UICall.log "Start: u") ∈
      (process_task "u" ⟨"best", "/dl", "", "", false, false, false, "en", true⟩
        ⟨.ok "/dl/v.mp4", [], .success, .success, .success, .ok ()⟩).events ∧
    (Ev.mk false (UICall.log "Start: u")).marshalled = false := by
  decide

/-- C8 amended: every progress, status, history and error-dialog callback
issued during pipeline execution is marshalled onto the Tk event loop via
ui.schedule, while every log callback is invoked directly from the worker
thread: an event is marshalled exactly when it is not a log. -/
theorem c8_marshalling_amended (url : String) (opts : Opts) (env : Env) :
    ∀ e ∈ (process_task url opts env).events, e.marshalled = !(e.call.isLog) := by
  intro e he
  cases hfetch : env.fetchResult with
  | error msg =>
    simp only [process_task, hfetch, List.append_assoc, List.mem_append,
      List.mem_cons, List.not_mem_nil, or_false] at he
    rcases he with (he | he) | he | he | he
    · subst he; rfl
    · subst he; rfl
    · exact progressEvents_marshalled _ _ he
    · subst he; rfl
    · subst he; rfl
  | ok f0 =>
    simp only [process_task, hfetch, List.append_assoc, List.mem_append,
      List.mem_cons, List.not_mem_nil, or_false] at he
    rcases he with (he | he) | he | he | he | he | he | he | he | he
    · subst he; rfl
    · subst he; rfl
    · exact progressEvents_marshalled _ _ he
    · -- conversion events
      split at he
      · obtain ⟨m, rfl⟩ := convertStage_events _ _ _ _ he
        rfl
      · simp at he
    · -- trim events
      split at he
      · obtain ⟨m, rfl⟩ := trimStage_events _ _ _ _ _ _ _ he
        rfl
      · simp at he
    · -- subtitle events
      split at he
      · cases hs : env.subsResult with
        | ok u => simp [hs] at he
        | error m =>
          simp only [hs] at he
          simp at he
          subst he; rfl
      · simp at he
    · subst he; rfl
    · subst he; rfl
    · subst he; rfl
    · subst he; rfl

theorem c8_marshalling_amended_witness :
    (Ev.mk true (UICall.setStatus "Downloading...")).marshalled =
      !((UICall.setStatus "Downloading...").isLog) :=
  c8_marshalling_amended "u" ⟨"best", "/dl", "", "", false, false, false, "en", true⟩
    ⟨.ok "/dl/v.mp4", [], .success, .success, .success, .ok ()⟩
    (Ev.mk true (UICall.setStatus "Downloading...")) (by decide)

/-- C4: for a job with a non-empty trim start or end mark, the trim stage
invokes ffmpeg with the stream copy command first; exactly when that exit
is non-zero it retries once with the libx264/aac re-encoding command; and
when both attempts fail it logs Trim failed and continues with the
untrimmed file. -/
theorem c4_trim_fast_then_reencode (url f g : String) (opts : Opts) (env : Env)
    (hf : env.fetchResult = .ok f)
    (htr : opts.start ≠ "" ∨ opts.end_ ≠ "")
    (hg : (process_task url opts env).trimInput = some g) :
    (env.trimCopy = .success →
      (process_task url opts env).trimCalls =
        [trimCmdCopy g (normalize opts.start) (normalize opts.end_)]) ∧
    (∀ w m, env.trimCopy = .failure w m →
      (process_task url opts env).trimCalls =
        [trimCmdCopy g (normalize opts.start) (normalize opts.end_),
         trimCmdRe g (normalize opts.start) (normalize opts.end_)]) ∧
    (∀ w m w2 m2, env.trimCopy = .failure w m → env.trimRe = .failure w2 m2 →
      Ev.mk false (.log ("Trim failed: " ++ m2)) ∈ (process_task url opts env).events ∧
      (process_task url opts env).outFile = some g) := by
  refine ⟨?_, ?_, ?_⟩
  · intro hcs
    simp [process_task, hf, htr, hcs, trimStage] at hg ⊢
    rw [hg]
  · intro w m hcf
    cases hre : env.trimRe <;>
      simp [process_task, hf, htr, hcf, hre, trimStage] at hg ⊢ <;> simp [hg]
  · intro w m w2 m2 hcf hrf
    simp [process_task, hf, htr, hcf, hrf, trimStage] at hg ⊢
    simp [hg]

theorem c4_trim_fast_then_reencode_witness :
    (process_task "u" ⟨"best", "/dl", "5", "", false, false, false, "en", true⟩
      ⟨.ok "/dl/v.mp4", [], .success, .failure false "c1", .failure false "c2",
        .ok ()⟩).trimCalls =
      [trimCmdCopy "/dl/v.mp4" (normalize "5") (normalize ""),
       trimCmdRe "/dl/v.mp4" (normalize "5") (normalize "")] :=
  ((c4_trim_fast_then_reencode "u" "/dl/v.mp4" "/dl/v.mp4"
    ⟨"best", "/dl", "5", "", false, false, false, "en", true⟩
    ⟨.ok "/dl/v.mp4", [], .success, .failure false "c1", .failure false "c2", .ok ()⟩
    rfl (Or.inl (by decide)) (by decide)).2.1) false "c1" rfl

/-- C2: when the fetch succeeds, failures of the conversion and of the
trim stage do not fail the job: the failures are logged, the pipeline
keeps the file of the last successful stage (here the fetched file), and
the job completes with that path (history appended, status Ready). -/
theorem c2_transform_failure_nonfatal (url f : String) (opts : Opts) (env : Env)
    (hf : env.fetchResult = .ok f)
    (hc : (opts.audio_only && opts.convert_mp3) = true →
      ∃ w m, env.convertRun = .failure w m)
    (ht : (opts.start ≠ "" ∨ opts.end_ ≠ "") →
      (∃ w m, env.trimCopy = .failure w m) ∧ ∃ w m, env.trimRe = .failure w m) :
    (process_task url opts env).outFile = some f ∧
    Ev.mk true (.addHistory url f) ∈ (process_task url opts env).events ∧
    Ev.mk true (.setStatus "Ready") ∈ (process_task url opts env).events ∧
    ((opts.audio_only && opts.convert_mp3) = true →
      ∃ m, Ev.mk false (.log ("MP3 conversion failed: " ++ m)) ∈
        (process_task url opts env).events) ∧
    ((opts.start ≠ "" ∨ opts.end_ ≠ "") →
      ∃ m, Ev.mk false (.log ("Trim failed: " ++ m)) ∈
        (process_task url opts env).events) := by
  by_cases hcv : (opts.audio_only && opts.convert_mp3) = true
  · obtain ⟨w, m, hcr⟩ := hc hcv
    by_cases htr : opts.start ≠ "" ∨ opts.end_ ≠ ""
    · obtain ⟨⟨w1, m1, hq1⟩, w2, m2, hq2⟩ := ht htr
      refine ⟨?_, ?_, ?_, fun _ => ⟨m, ?_⟩, fun _ => ⟨m2, ?_⟩⟩ <;>
        simp [process_task, hf, hcv, htr, hcr, hq1, hq2, convertStage, trimStage]
    · refine ⟨?_, ?_, ?_, fun _ => ⟨m, ?_⟩, fun hx => absurd hx htr⟩ <;>
        simp [process_task, hf, hcv, htr, hcr, convertStage]
  · by_cases htr : opts.start ≠ "" ∨ opts.end_ ≠ ""
    · obtain ⟨⟨w1, m1, hq1⟩, w2, m2, hq2⟩ := ht htr
      refine ⟨?_, ?_, ?_, fun hx => absurd hx hcv, fun _ => ⟨m2, ?_⟩⟩ <;>
        simp [process_task, hf, hcv, htr, hq1, hq2, trimStage]
    · refine ⟨?_, ?_, ?_, fun hx => absurd hx hcv, fun hx => absurd hx htr⟩ <;>
        simp [process_task, hf, hcv, htr]

theorem c2_transform_failure_nonfatal_witness :
    (process_task "u" ⟨"audio", "/dl", "1", "", true, true, false, "en", true⟩
      ⟨.ok "/dl/v.m4a", [], .failure false "e1", .failure false "e2",
        .failure false "e3", .ok ()⟩).outFile = some "/dl/v.m4a" ∧
    Ev.mk true (.addHistory "u" "/dl/v.m4a") ∈
      (process_task "u" ⟨"audio", "/dl", "1", "", true, true, false, "en", true⟩
        ⟨.ok "/dl/v.m4a", [], .failure false "e1", .failure false "e2",
          .failure false "e3", .ok ()⟩).events := by
  have h := c2_transform_failure_nonfatal "u" "/dl/v.m4a"
    ⟨"audio", "/dl", "1", "", true, true, false, "en", true⟩
    ⟨.ok "/dl/v.m4a", [], .failure false "e1", .failure false "e2",
      .failure false "e3", .ok ()⟩ rfl
    (fun _ => ⟨false, "e1", rfl⟩)
    (fun _ => ⟨⟨false, "e2", rfl⟩, false, "e3", rfl⟩)
  exact ⟨h.1, h.2.1⟩

theorem c10_quality_fallback_witness :
    (process_task "u" ⟨"audio", "/dl", "", "", false, false, false, "en", true⟩
      ⟨.ok "/dl/v.mp4", [], .success, .success, .success, .ok ()⟩).formatUsed =
      "bestvideo+bestaudio/best" :=
  (c10_quality_fallback "u" _ _ rfl (by decide) (by decide)).1

end YTD
